import Mathlib

/-!
# Verification of the quaternion / rotation library

A shallow embedding of the Python modules `quaternion.py`, `rotation.py`
and `instance_checker.py`.  Floating-point values are modelled as real
numbers; Python's dynamic argument checking is modelled with the `PyVal`
sum type, and raised exceptions with `Except` (or, for in-place setters
whose receiver survives the exception, with a post-state / error pair).
-/

noncomputable section

namespace PyQuat

/-- A quaternion: scalar component `o` and vector components `i`, `j`, `k`
(instance members of the Python class `Quaternion`). -/
@[ext]
structure Quaternion where
  o : ℝ
  i : ℝ
  j : ℝ
  k : ℝ

/-- A 3D point / vector (Python class `Point3D`). -/
@[ext]
structure Point3D where
  x : ℝ
  y : ℝ
  z : ℝ

/-- A dynamically typed Python value, as far as the library inspects it:
integers and floats (both accepted by `InstanceCheck.isFloat`), strings
(a stand-in for every unsupported type), quaternions and points. -/
inductive PyVal where
  | pyInt : ℤ → PyVal
  | pyFloat : ℝ → PyVal
  | pyStr : String → PyVal
  | pyQuat : Quaternion → PyVal
  | pyPoint : Point3D → PyVal

namespace PyVal

/-- The real number a numeric `PyVal` denotes (junk value 0 elsewhere;
only consulted after an `isFloat` check succeeds). -/
def toReal : PyVal → ℝ
  | pyInt n => (n : ℝ)
  | pyFloat r => r
  | _ => 0

/-- `isinstance(q, Quaternion)` as a partial projection. -/
def asQuat : PyVal → Option Quaternion
  | pyQuat q => some q
  | _ => none

/-- `isinstance(p, Point3D)` as a partial projection. -/
def asPoint : PyVal → Option Point3D
  | pyPoint p => some p
  | _ => none

end PyVal

/-- `InstanceCheck.isFloat`: `isinstance(n, float) or isinstance(n, int)`. -/
def InstanceCheck.isFloat : PyVal → Bool
  | .pyInt _ => true
  | .pyFloat _ => true
  | _ => false

/-- Exceptions raised by `Quaternion` methods, separated by cause as the
spec's error taxonomy names them (the Python code raises a single
`QuaternionException` class with distinct messages). -/
inductive QuatErr where
  | invalidArgument : QuatErr
  | degenerateQuaternion : QuatErr
deriving DecidableEq

/-- Exceptions raised by `Rotation` methods (`RotationException`),
separated by cause. -/
inductive RotErr where
  | invalidArgument : RotErr
  | degenerateRotation : RotErr
deriving DecidableEq

/-- `PointException` causes. -/
inductive PointErr where
  | invalidArgument : PointErr
deriving DecidableEq

namespace Quaternion

/-- `Quaternion.eps = 1e-12`: tolerance below which a (squared) norm is
treated as zero. -/
def eps : ℝ := 1e-12

/-- `Quaternion.__sqsum`: `o*o + i*i + j*j + k*k`. -/
def sqsum (q : Quaternion) : ℝ := q.o * q.o + q.i * q.i + q.j * q.j + q.k * q.k

/-- `Quaternion.norm`: `math.sqrt(self.__sqsum())`.  Note the source
raises no exception here. -/
def norm (q : Quaternion) : ℝ := Real.sqrt q.sqsum

/-- `Quaternion.conj`: `o` unchanged, `i`, `j`, `k` negated. -/
def conj (q : Quaternion) : Quaternion := ⟨q.o, -q.i, -q.j, -q.k⟩

/-- `Quaternion.__neg__`: all four components negated. -/
def neg (q : Quaternion) : Quaternion := ⟨-q.o, -q.i, -q.j, -q.k⟩

/-- The quaternion branch of `Quaternion.__mul__` (Hamilton product),
transcribed from the source formulas. -/
def hmul (p q : Quaternion) : Quaternion :=
  ⟨p.o * q.o - p.i * q.i - p.j * q.j - p.k * q.k,
   p.o * q.i + p.i * q.o + p.j * q.k - p.k * q.j,
   p.o * q.j - p.i * q.k + p.j * q.o + p.k * q.i,
   p.o * q.k + p.i * q.j - p.j * q.i + p.k * q.o⟩

/-- The scalar branch of `Quaternion.__mul__`: all four components
multiplied by the scalar. -/
def smul (p : Quaternion) (s : ℝ) : Quaternion :=
  ⟨p.o * s, p.i * s, p.j * s, p.k * s⟩

/-- The scalar branch of `Quaternion.__iadd__`: the scalar is added to
the `o` component only. -/
def addScalar (p : Quaternion) (s : ℝ) : Quaternion :=
  ⟨p.o + s, p.i, p.j, p.k⟩

/-- `Quaternion.__mul__` with its dynamic dispatch: quaternion operand →
Hamilton product; numeric operand → uniform scaling; anything else →
`QuaternionException`. -/
def mul (p : Quaternion) (v : PyVal) : Except QuatErr Quaternion :=
  match v.asQuat with
  | some q =>
      .ok ⟨p.o * q.o - p.i * q.i - p.j * q.j - p.k * q.k,
           p.o * q.i + p.i * q.o + p.j * q.k - p.k * q.j,
           p.o * q.j - p.i * q.k + p.j * q.o + p.k * q.i,
           p.o * q.k + p.i * q.j - p.j * q.i + p.k * q.o⟩
  | none =>
      if InstanceCheck.isFloat v then
        .ok ⟨p.o * v.toReal, p.i * v.toReal, p.j * v.toReal, p.k * v.toReal⟩
      else
        .error .invalidArgument

/-- `Quaternion.__imul__`: the quaternion branch assigns all four
components simultaneously from the same formulas as `__mul__`; the
scalar branch multiplies each component in place. -/
def imul (p : Quaternion) (v : PyVal) : Except QuatErr Quaternion :=
  match v.asQuat with
  | some q =>
      .ok ⟨p.o * q.o - p.i * q.i - p.j * q.j - p.k * q.k,
           p.o * q.i + p.i * q.o + p.j * q.k - p.k * q.j,
           p.o * q.j - p.i * q.k + p.j * q.o + p.k * q.i,
           p.o * q.k + p.i * q.j - p.j * q.i + p.k * q.o⟩
  | none =>
      if InstanceCheck.isFloat v then
        .ok ⟨p.o * v.toReal, p.i * v.toReal, p.j * v.toReal, p.k * v.toReal⟩
      else
        .error .invalidArgument

/-- `Quaternion.reciprocal`: conjugate divided by the squared norm;
raises when the squared norm is below `eps`. -/
def reciprocal (q : Quaternion) : Except QuatErr Quaternion :=
  let nsq := q.sqsum
  if nsq < eps then .error .degenerateQuaternion
  else .ok ⟨q.o / nsq, -q.i / nsq, -q.j / nsq, -q.k / nsq⟩

/-- `Quaternion.unit`: every component divided by the norm; raises when
the norm is below `eps`. -/
def unit (q : Quaternion) : Except QuatErr Quaternion :=
  let n := q.norm
  if n < eps then .error .degenerateQuaternion
  else .ok ⟨q.o / n, q.i / n, q.j / n, q.k / n⟩

/-- `Quaternion.setScalar`: the post-state of the receiver paired with
the raised exception, if any.  The type check precedes the assignment,
so a failing call leaves the receiver untouched. -/
def setScalar (q : Quaternion) (v : PyVal) : Quaternion × Option QuatErr :=
  if InstanceCheck.isFloat v then ({ q with o := v.toReal }, none)
  else (q, some .invalidArgument)

/-- `Quaternion.setI`. -/
def setI (q : Quaternion) (v : PyVal) : Quaternion × Option QuatErr :=
  if InstanceCheck.isFloat v then ({ q with i := v.toReal }, none)
  else (q, some .invalidArgument)

/-- `Quaternion.setJ`. -/
def setJ (q : Quaternion) (v : PyVal) : Quaternion × Option QuatErr :=
  if InstanceCheck.isFloat v then ({ q with j := v.toReal }, none)
  else (q, some .invalidArgument)

/-- `Quaternion.setK`. -/
def setK (q : Quaternion) (v : PyVal) : Quaternion × Option QuatErr :=
  if InstanceCheck.isFloat v then ({ q with k := v.toReal }, none)
  else (q, some .invalidArgument)

end Quaternion

namespace Point3D

/-- `Point3D.sqSum`: `x*x + y*y + z*z`. -/
def sqSum (p : Point3D) : ℝ := p.x * p.x + p.y * p.y + p.z * p.z

/-- `Point3D.__init__` on dynamic arguments: three numbers, or a point
to copy in the first position; anything else raises `PointException`. -/
def make (x y z : PyVal) : Except PointErr Point3D :=
  if InstanceCheck.isFloat x && InstanceCheck.isFloat y && InstanceCheck.isFloat z then
    .ok ⟨x.toReal, y.toReal, z.toReal⟩
  else
    match x.asPoint with
    | some p => .ok p
    | none => .error .invalidArgument

end Point3D

/-- `Rotation`'s instance members: the axis `__r`, the angle `__theta`
(radians) and the derived rotation quaternion `__q`. -/
@[ext]
structure Rotation where
  r : Point3D
  theta : ℝ
  q : Quaternion

namespace Rotation

/-- `Rotation.__update`: normalize the pure quaternion built from the
axis (propagating a failure as `DegenerateRotation`), overwrite the axis
with its vector part, then scale by `sin(0.5*θ)` (in-place scalar `*=`)
and add `cos(0.5*θ)` to the scalar component (in-place scalar `+=`).
Returns the new `(axis, quaternion)` pair. -/
def update (r : Point3D) (θ : ℝ) : Except RotErr (Point3D × Quaternion) :=
  match Quaternion.unit ⟨0, r.x, r.y, r.z⟩ with
  | .error _ => .error .degenerateRotation
  | .ok qu =>
      .ok (⟨qu.i, qu.j, qu.k⟩,
           (qu.smul (Real.sin (0.5 * θ))).addScalar (Real.cos (0.5 * θ)))

/-- `Rotation.setAxis`: build the candidate point (a `PointException`
becomes `RotationException`/invalid argument), then re-derive the state.
The angle is untouched. -/
def setAxis (rot : Rotation) (rx ry rz : PyVal) : Except RotErr Rotation :=
  match Point3D.make rx ry rz with
  | .error _ => .error .invalidArgument
  | .ok p =>
      match update p rot.theta with
      | .error e => .error e
      | .ok (r', q') => .ok ⟨r', rot.theta, q'⟩

/-- `Rotation.setAngle`: validate the angle, store it, re-derive. -/
def setAngle (rot : Rotation) (v : PyVal) : Except RotErr Rotation :=
  if InstanceCheck.isFloat v then
    match update rot.r v.toReal with
    | .error e => .error e
    | .ok (r', q') => .ok ⟨r', v.toReal, q'⟩
  else .error .invalidArgument

/-- `Rotation.__init__`: validate and store the angle first, then run
`setAxis` (whose `update` only reads the new point and the angle, so the
not-yet-initialized axis and quaternion are irrelevant: they are passed
as placeholders). -/
def make (rx ry rz angle : PyVal) : Except RotErr Rotation :=
  if InstanceCheck.isFloat angle then
    setAxis ⟨⟨0, 0, 0⟩, angle.toReal, ⟨0, 0, 0, 0⟩⟩ rx ry rz
  else .error .invalidArgument

/-- `Rotation.getAxis`: the stored axis scaled by `factor`. -/
def getAxis (rot : Rotation) (factor : ℝ) : Point3D :=
  ⟨rot.r.x * factor, rot.r.y * factor, rot.r.z * factor⟩

/-- `Rotation.rotate`: reject non-points, embed the point as a pure
quaternion, form `q * pq * q.conj()` (library `__mul__`, quaternion
branch, left associated) and return its vector part. -/
def rotate (rot : Rotation) (v : PyVal) : Except RotErr Point3D :=
  match v.asPoint with
  | none => .error .invalidArgument
  | some p =>
      let pq : Quaternion := ⟨0, p.x, p.y, p.z⟩
      let pqr := (rot.q.hmul pq).hmul rot.q.conj
      .ok ⟨pqr.i, pqr.j, pqr.k⟩

end Rotation

namespace Quaternion

lemma sqsum_nonneg (q : Quaternion) : 0 ≤ q.sqsum := by
  unfold sqsum
  nlinarith [mul_self_nonneg q.o, mul_self_nonneg q.i, mul_self_nonneg q.j,
    mul_self_nonneg q.k]

lemma eps_pos : (0 : ℝ) < eps := by norm_num [eps]

lemma qnorm_nonneg (q : Quaternion) : 0 ≤ q.norm := Real.sqrt_nonneg _

lemma mul_self_norm (q : Quaternion) :
    q.norm * q.norm = q.o * q.o + q.i * q.i + q.j * q.j + q.k * q.k :=
  Real.mul_self_sqrt q.sqsum_nonneg

lemma unit_eq (q : Quaternion) (h : eps ≤ q.norm) :
    q.unit = .ok ⟨q.o / q.norm, q.i / q.norm, q.j / q.norm, q.k / q.norm⟩ := by
  simp only [unit]
  rw [if_neg (not_lt.2 h)]

lemma unit_err (q : Quaternion) (h : q.norm < eps) :
    q.unit = .error .degenerateQuaternion := by
  simp only [unit]
  rw [if_pos h]

lemma unit_cases (q u : Quaternion) (h : q.unit = .ok u) :
    eps ≤ q.norm ∧
      u = ⟨q.o / q.norm, q.i / q.norm, q.j / q.norm, q.k / q.norm⟩ := by
  by_cases hn : q.norm < eps
  · rw [unit_err q hn] at h
    exact absurd h (by simp)
  · rw [unit_eq q (not_lt.1 hn)] at h
    exact ⟨not_lt.1 hn, (by simpa using h.symm)⟩

lemma unit_sqsum (q u : Quaternion) (h : q.unit = .ok u) : u.sqsum = 1 := by
  obtain ⟨hn, rfl⟩ := unit_cases q u h
  have hpos : 0 < q.norm := lt_of_lt_of_le eps_pos hn
  have hne : q.norm ≠ 0 := ne_of_gt hpos
  have hsq := q.mul_self_norm
  unfold sqsum
  field_simp
  linarith [hsq]

lemma unit_norm_one (q u : Quaternion) (h : q.unit = .ok u) : u.norm = 1 := by
  have hs := unit_sqsum q u h
  unfold norm
  rw [hs, Real.sqrt_one]

lemma reciprocal_eq (q : Quaternion) (h : eps ≤ q.sqsum) :
    q.reciprocal =
      .ok ⟨q.o / q.sqsum, -q.i / q.sqsum, -q.j / q.sqsum, -q.k / q.sqsum⟩ := by
  simp only [reciprocal]
  rw [if_neg (not_lt.2 h)]

lemma reciprocal_err (q : Quaternion) (h : q.sqsum < eps) :
    q.reciprocal = .error .degenerateQuaternion := by
  simp only [reciprocal]
  rw [if_pos h]

end Quaternion

lemma Point3D.sqSum_nonneg (r : Point3D) : 0 ≤ r.sqSum := by
  unfold Point3D.sqSum
  nlinarith [mul_self_nonneg r.x, mul_self_nonneg r.y, mul_self_nonneg r.z]

lemma norm_pure (r : Point3D) :
    Quaternion.norm ⟨0, r.x, r.y, r.z⟩ = Real.sqrt r.sqSum := by
  simp [Quaternion.norm, Quaternion.sqsum, Point3D.sqSum]

lemma update_err (r : Point3D) (θ : ℝ) (h : Real.sqrt r.sqSum < Quaternion.eps) :
    Rotation.update r θ = .error .degenerateRotation := by
  unfold Rotation.update
  rw [Quaternion.unit_err _ (by rwa [norm_pure])]

lemma update_ok (r : Point3D) (θ : ℝ) (h : Quaternion.eps ≤ Real.sqrt r.sqSum) :
    Rotation.update r θ =
      .ok (⟨r.x / Real.sqrt r.sqSum, r.y / Real.sqrt r.sqSum, r.z / Real.sqrt r.sqSum⟩,
           ⟨Real.cos (θ / 2),
            Real.sin (θ / 2) * (r.x / Real.sqrt r.sqSum),
            Real.sin (θ / 2) * (r.y / Real.sqrt r.sqSum),
            Real.sin (θ / 2) * (r.z / Real.sqrt r.sqSum)⟩) := by
  have harg : (0.5 : ℝ) * θ = θ / 2 := by ring
  unfold Rotation.update
  rw [Quaternion.unit_eq _ (by rwa [norm_pure]), harg]
  simp only [Quaternion.smul, Quaternion.addScalar, norm_pure, Except.ok.injEq,
    Prod.mk.injEq, Quaternion.mk.injEq, Point3D.mk.injEq]
  repeat' apply And.intro
  all_goals first | rfl | ring1 | ring_nf

lemma update_ok_inv (r : Point3D) (θ : ℝ) (r' : Point3D) (q' : Quaternion)
    (h : Rotation.update r θ = .ok (r', q')) :
    Quaternion.eps ≤ Real.sqrt r.sqSum ∧
    r' = ⟨r.x / Real.sqrt r.sqSum, r.y / Real.sqrt r.sqSum, r.z / Real.sqrt r.sqSum⟩ ∧
    q' = ⟨Real.cos (θ / 2),
          Real.sin (θ / 2) * (r.x / Real.sqrt r.sqSum),
          Real.sin (θ / 2) * (r.y / Real.sqrt r.sqSum),
          Real.sin (θ / 2) * (r.z / Real.sqrt r.sqSum)⟩ := by
  by_cases hn : Real.sqrt r.sqSum < Quaternion.eps
  · rw [update_err r θ hn] at h
    exact absurd h (by simp)
  · have hge := not_lt.1 hn
    rw [update_ok r θ hge] at h
    simp only [Except.ok.injEq, Prod.mk.injEq] at h
    exact ⟨hge, h.1.symm, h.2.symm⟩

lemma unit_axis_sqSum (r : Point3D) (h : Quaternion.eps ≤ Real.sqrt r.sqSum) :
    (⟨r.x / Real.sqrt r.sqSum, r.y / Real.sqrt r.sqSum,
      r.z / Real.sqrt r.sqSum⟩ : Point3D).sqSum = 1 := by
  have hpos : 0 < Real.sqrt r.sqSum := lt_of_lt_of_le Quaternion.eps_pos h
  have hne : Real.sqrt r.sqSum ≠ 0 := ne_of_gt hpos
  have hsq : Real.sqrt r.sqSum * Real.sqrt r.sqSum = r.sqSum :=
    Real.mul_self_sqrt r.sqSum_nonneg
  unfold Point3D.sqSum at hsq hne ⊢
  field_simp [hne]
  linarith [hsq]

lemma rotquat_sqsum (u : Point3D) (θ : ℝ) (hu : u.sqSum = 1) :
    (⟨Real.cos (θ / 2), Real.sin (θ / 2) * u.x, Real.sin (θ / 2) * u.y,
      Real.sin (θ / 2) * u.z⟩ : Quaternion).sqsum = 1 := by
  have ht := Real.sin_sq_add_cos_sq (θ / 2)
  unfold Quaternion.sqsum
  unfold Point3D.sqSum at hu
  simp only
  linear_combination Real.sin (θ / 2) ^ 2 * hu + ht

lemma update_invariant (r : Point3D) (θ : ℝ) (r' : Point3D) (q' : Quaternion)
    (h : Rotation.update r θ = .ok (r', q')) :
    q'.norm = 1 ∧ r'.sqSum = 1 ∧
    q' = ⟨Real.cos (θ / 2), Real.sin (θ / 2) * r'.x,
          Real.sin (θ / 2) * r'.y, Real.sin (θ / 2) * r'.z⟩ := by
  obtain ⟨hge, hr, hq⟩ := update_ok_inv r θ r' q' h
  subst hr hq
  have h1 := unit_axis_sqSum r hge
  refine ⟨?_, h1, rfl⟩
  have h2 := rotquat_sqsum _ θ h1
  unfold Quaternion.norm
  rw [h2, Real.sqrt_one]

lemma setAxis_ok_inv (rot0 rot : Rotation) (a b c : PyVal)
    (h : rot0.setAxis a b c = .ok rot) :
    ∃ p, Point3D.make a b c = .ok p ∧
      Rotation.update p rot0.theta = .ok (rot.r, rot.q) ∧ rot.theta = rot0.theta := by
  unfold Rotation.setAxis at h
  split at h
  · exact absurd h (by simp)
  · rename_i p hp
    split at h
    · exact absurd h (by simp)
    · rename_i r' q' hu
      simp only [Except.ok.injEq] at h
      subst h
      refine ⟨p, hp, ?_, rfl⟩
      rw [hu]

lemma setAngle_ok_inv (rot0 rot : Rotation) (v : PyVal)
    (h : rot0.setAngle v = .ok rot) :
    InstanceCheck.isFloat v = true ∧
      Rotation.update rot0.r v.toReal = .ok (rot.r, rot.q) ∧ rot.theta = v.toReal := by
  unfold Rotation.setAngle at h
  by_cases hf : InstanceCheck.isFloat v
  · rw [if_pos hf] at h
    split at h
    · exact absurd h (by simp)
    · rename_i r' q' hu
      simp only [Except.ok.injEq] at h
      subst h
      refine ⟨hf, ?_, rfl⟩
      rw [hu]
  · rw [if_neg hf] at h
    exact absurd h (by simp)

lemma make_ok_inv (a b c d : PyVal) (rot : Rotation)
    (h : Rotation.make a b c d = .ok rot) :
    InstanceCheck.isFloat d = true ∧
      ∃ p, Point3D.make a b c = .ok p ∧
        Rotation.update p d.toReal = .ok (rot.r, rot.q) ∧ rot.theta = d.toReal := by
  unfold Rotation.make at h
  by_cases hf : InstanceCheck.isFloat d
  · rw [if_pos hf] at h
    obtain ⟨p, hp, hu, ht⟩ := setAxis_ok_inv ⟨⟨0, 0, 0⟩, d.toReal, ⟨0, 0, 0, 0⟩⟩ rot a b c h
    exact ⟨hf, p, hp, hu, ht⟩
  · rw [if_neg hf] at h
    exact absurd h (by simp)

lemma getAxis_one_sqSum (rot : Rotation) : (rot.getAxis 1).sqSum = rot.r.sqSum := by
  unfold Rotation.getAxis Point3D.sqSum
  ring

/-- C2: quaternion×quaternion multiplication is the Hamilton product with
exactly the four stated component formulas, quaternion×scalar scales all
four components, and the in-place form `*=` agrees with `*` on every
operand (same result or the same exception). -/
theorem mul_spec (q1 q2 : Quaternion) (s : ℝ) :
    q1.mul (.pyQuat q2) =
      .ok ⟨q1.o * q2.o - q1.i * q2.i - q1.j * q2.j - q1.k * q2.k,
           q1.o * q2.i + q1.i * q2.o + q1.j * q2.k - q1.k * q2.j,
           q1.o * q2.j - q1.i * q2.k + q1.j * q2.o + q1.k * q2.i,
           q1.o * q2.k + q1.i * q2.j - q1.j * q2.i + q1.k * q2.o⟩ ∧
    q1.mul (.pyFloat s) = .ok ⟨q1.o * s, q1.i * s, q1.j * s, q1.k * s⟩ ∧
    ∀ v : PyVal, q1.imul v = q1.mul v := by
  refine ⟨rfl, rfl, fun v => ?_⟩
  cases v <;> rfl

/-- C5: `reciprocal` fails with the degenerate-quaternion error exactly
when the squared norm is below `eps`; otherwise it returns the conjugate
divided by the squared norm, and that result is a two-sided inverse:
`q * q⁻¹ = q⁻¹ * q = 1`. -/
theorem reciprocal_spec (q : Quaternion) :
    (q.reciprocal = .error .degenerateQuaternion ↔ q.sqsum < Quaternion.eps) ∧
    (Quaternion.eps ≤ q.sqsum →
      q.reciprocal =
        .ok ⟨q.conj.o / q.sqsum, q.conj.i / q.sqsum,
             q.conj.j / q.sqsum, q.conj.k / q.sqsum⟩ ∧
      ∀ r, q.reciprocal = .ok r →
        q.hmul r = ⟨1, 0, 0, 0⟩ ∧ r.hmul q = ⟨1, 0, 0, 0⟩) := by
  constructor
  · constructor
    · intro h
      by_contra hn
      rw [Quaternion.reciprocal_eq q (not_lt.1 hn)] at h
      exact absurd h (by simp)
    · exact Quaternion.reciprocal_err q
  · intro h
    refine ⟨Quaternion.reciprocal_eq q h, fun r hr => ?_⟩
    rw [Quaternion.reciprocal_eq q h] at hr
    have hr' : r = ⟨q.o / q.sqsum, -q.i / q.sqsum, -q.j / q.sqsum, -q.k / q.sqsum⟩ := by
      simpa using hr.symm
    subst hr'
    have hS : q.o * q.o + q.i * q.i + q.j * q.j + q.k * q.k ≠ 0 := by
      have : (0 : ℝ) < q.sqsum := lt_of_lt_of_le Quaternion.eps_pos h
      unfold Quaternion.sqsum at this
      linarith
    have hs : q.sqsum = q.o * q.o + q.i * q.i + q.j * q.j + q.k * q.k := rfl
    constructor <;>
      · ext <;> simp only [Quaternion.hmul, hs] <;> field_simp <;> ring

/-- C5 witness at the concrete quaternion `2 + 0i + 0j + 0k`. -/
theorem reciprocal_spec_witness :
    Quaternion.eps ≤ Quaternion.sqsum ⟨2, 0, 0, 0⟩ ∧
    (Quaternion.reciprocal ⟨2, 0, 0, 0⟩ =
        .ok ⟨(Quaternion.conj ⟨2, 0, 0, 0⟩).o / Quaternion.sqsum ⟨2, 0, 0, 0⟩,
             (Quaternion.conj ⟨2, 0, 0, 0⟩).i / Quaternion.sqsum ⟨2, 0, 0, 0⟩,
             (Quaternion.conj ⟨2, 0, 0, 0⟩).j / Quaternion.sqsum ⟨2, 0, 0, 0⟩,
             (Quaternion.conj ⟨2, 0, 0, 0⟩).k / Quaternion.sqsum ⟨2, 0, 0, 0⟩⟩ ∧
      ∀ r, Quaternion.reciprocal ⟨2, 0, 0, 0⟩ = .ok r →
        Quaternion.hmul ⟨2, 0, 0, 0⟩ r = ⟨1, 0, 0, 0⟩ ∧
        Quaternion.hmul r ⟨2, 0, 0, 0⟩ = ⟨1, 0, 0, 0⟩) := by
  have h : Quaternion.eps ≤ Quaternion.sqsum ⟨2, 0, 0, 0⟩ := by
    norm_num [Quaternion.sqsum, Quaternion.eps]
  exact ⟨h, (reciprocal_spec ⟨2, 0, 0, 0⟩).2 h⟩

/-- C6: `unit` fails with the degenerate-quaternion error exactly when
the norm is below `eps`; otherwise it returns the quaternion divided
componentwise by its norm, and that result has norm exactly 1. -/
theorem unit_spec (q : Quaternion) :
    (q.unit = .error .degenerateQuaternion ↔ q.norm < Quaternion.eps) ∧
    (Quaternion.eps ≤ q.norm →
      q.unit = .ok ⟨q.o / q.norm, q.i / q.norm, q.j / q.norm, q.k / q.norm⟩ ∧
      ∀ u, q.unit = .ok u → u.norm = 1) := by
  constructor
  · constructor
    · intro h
      by_contra hn
      rw [Quaternion.unit_eq q (not_lt.1 hn)] at h
      exact absurd h (by simp)
    · exact Quaternion.unit_err q
  · exact fun h => ⟨Quaternion.unit_eq q h, fun u hu => Quaternion.unit_norm_one q u hu⟩

/-- C6 witness at the concrete quaternion `1 + 0i + 0j + 0k`. -/
theorem unit_spec_witness :
    Quaternion.eps ≤ Quaternion.norm ⟨1, 0, 0, 0⟩ ∧
    (Quaternion.unit ⟨1, 0, 0, 0⟩ =
        .ok ⟨1 / Quaternion.norm ⟨1, 0, 0, 0⟩, 0 / Quaternion.norm ⟨1, 0, 0, 0⟩,
             0 / Quaternion.norm ⟨1, 0, 0, 0⟩, 0 / Quaternion.norm ⟨1, 0, 0, 0⟩⟩ ∧
      ∀ u, Quaternion.unit ⟨1, 0, 0, 0⟩ = .ok u → u.norm = 1) := by
  have h : Quaternion.eps ≤ Quaternion.norm ⟨1, 0, 0, 0⟩ := by
    have h1 : Quaternion.norm ⟨1, 0, 0, 0⟩ = 1 := by
      simp [Quaternion.norm, Quaternion.sqsum]
    rw [h1]
    norm_num [Quaternion.eps]
  exact ⟨h, (unit_spec ⟨1, 0, 0, 0⟩).2 h⟩

/-- C7 counterexample: on the zero quaternion (whose squared norm is
below `eps`), `norm` does not raise at all — the source computes
`sqrt(0) = 0` with no degenerate check, contradicting the claim that
`Norm()` raises the degenerate-quaternion error there. -/
theorem norm_no_error_counterexample :
    Quaternion.sqsum ⟨0, 0, 0, 0⟩ < Quaternion.eps ∧
    Quaternion.norm ⟨0, 0, 0, 0⟩ = 0 := by
  constructor
  · norm_num [Quaternion.sqsum, Quaternion.eps]
  · simp [Quaternion.norm, Quaternion.sqsum]

/-- C7 amended: `reciprocal` raises the degenerate-quaternion error
exactly when the squared norm is below `eps` and succeeds otherwise,
while `norm` is total: it raises nothing and returns the square root of
the squared norm on every quaternion, degenerate ones included. -/
theorem norm_reciprocal_spec (q : Quaternion) :
    (q.reciprocal = .error .degenerateQuaternion ↔ q.sqsum < Quaternion.eps) ∧
    (Quaternion.eps ≤ q.sqsum → ∃ r, q.reciprocal = .ok r) ∧
    q.norm = Real.sqrt q.sqsum := by
  refine ⟨⟨fun h => ?_, Quaternion.reciprocal_err q⟩, fun h => ?_, rfl⟩
  · by_contra hn
    rw [Quaternion.reciprocal_eq q (not_lt.1 hn)] at h
    exact absurd h (by simp)
  · exact ⟨_, Quaternion.reciprocal_eq q h⟩

/-- C7 amended claim, witness at the concrete quaternion `3`. -/
theorem norm_reciprocal_spec_witness :
    Quaternion.eps ≤ Quaternion.sqsum ⟨3, 0, 0, 0⟩ ∧
    ∃ r, Quaternion.reciprocal ⟨3, 0, 0, 0⟩ = .ok r := by
  have h : Quaternion.eps ≤ Quaternion.sqsum ⟨3, 0, 0, 0⟩ := by
    norm_num [Quaternion.sqsum, Quaternion.eps]
  exact ⟨h, (norm_reciprocal_spec ⟨3, 0, 0, 0⟩).2.1 h⟩

/-- C9: each of the four component setters rejects a non-numeric
argument with the invalid-argument error while leaving all four
components of the receiver unchanged, and on a numeric argument updates
exactly its own component (the returned receiver is the mutated one). -/
theorem setters_spec (q : Quaternion) (v : PyVal) :
    (InstanceCheck.isFloat v = false →
      q.setScalar v = (q, some .invalidArgument) ∧
      q.setI v = (q, some .invalidArgument) ∧
      q.setJ v = (q, some .invalidArgument) ∧
      q.setK v = (q, some .invalidArgument)) ∧
    (InstanceCheck.isFloat v = true →
      q.setScalar v = (⟨v.toReal, q.i, q.j, q.k⟩, none) ∧
      q.setI v = (⟨q.o, v.toReal, q.j, q.k⟩, none) ∧
      q.setJ v = (⟨q.o, q.i, v.toReal, q.k⟩, none) ∧
      q.setK v = (⟨q.o, q.i, q.j, v.toReal⟩, none)) := by
  constructor <;> intro h <;>
    simp [Quaternion.setScalar, Quaternion.setI, Quaternion.setJ, Quaternion.setK, h]

/-- C9 witness: the setters of `1+2i+3j+4k`, fed a string (rejected,
receiver intact) and the number 7 (each updates only its own slot). -/
theorem setters_spec_witness :
    (Quaternion.setScalar ⟨1, 2, 3, 4⟩ (.pyStr "abc") = (⟨1, 2, 3, 4⟩, some .invalidArgument) ∧
     Quaternion.setI ⟨1, 2, 3, 4⟩ (.pyStr "abc") = (⟨1, 2, 3, 4⟩, some .invalidArgument) ∧
     Quaternion.setJ ⟨1, 2, 3, 4⟩ (.pyStr "abc") = (⟨1, 2, 3, 4⟩, some .invalidArgument) ∧
     Quaternion.setK ⟨1, 2, 3, 4⟩ (.pyStr "abc") = (⟨1, 2, 3, 4⟩, some .invalidArgument)) ∧
    (Quaternion.setScalar ⟨1, 2, 3, 4⟩ (.pyFloat 7) = (⟨7, 2, 3, 4⟩, none) ∧
     Quaternion.setI ⟨1, 2, 3, 4⟩ (.pyFloat 7) = (⟨1, 7, 3, 4⟩, none) ∧
     Quaternion.setJ ⟨1, 2, 3, 4⟩ (.pyFloat 7) = (⟨1, 2, 7, 4⟩, none) ∧
     Quaternion.setK ⟨1, 2, 3, 4⟩ (.pyFloat 7) = (⟨1, 2, 3, 7⟩, none)) :=
  ⟨(setters_spec ⟨1, 2, 3, 4⟩ (.pyStr "abc")).1 rfl,
   (setters_spec ⟨1, 2, 3, 4⟩ (.pyFloat 7)).2 rfl⟩

/-- C1: `rotate` on a `Point3D` embeds the point as the pure quaternion
`0 + x·i + y·j + z·k`, forms `q * p * conj q` with the stored rotation
quaternion, and returns the i, j, k components of the product as a new
point; on anything that is not a `Point3D` it raises the
invalid-argument rotation error. -/
theorem rotate_spec (rot : Rotation) (p : Point3D) (v : PyVal) :
    rot.rotate (.pyPoint p) =
      .ok ⟨((rot.q.hmul ⟨0, p.x, p.y, p.z⟩).hmul rot.q.conj).i,
           ((rot.q.hmul ⟨0, p.x, p.y, p.z⟩).hmul rot.q.conj).j,
           ((rot.q.hmul ⟨0, p.x, p.y, p.z⟩).hmul rot.q.conj).k⟩ ∧
    (v.asPoint = none → rot.rotate v = .error .invalidArgument) := by
  exact ⟨rfl, fun h => by simp [Rotation.rotate, h]⟩

/-- C1 witness: the identity rotation state applied to the point
`(1,2,3)`, and a string rejected as a rotation argument. -/
theorem rotate_spec_witness :
    Rotation.rotate ⟨⟨0, 0, 1⟩, 0, ⟨1, 0, 0, 0⟩⟩ (.pyPoint ⟨1, 2, 3⟩) =
      .ok ⟨((Quaternion.hmul ⟨1, 0, 0, 0⟩ ⟨0, 1, 2, 3⟩).hmul (Quaternion.conj ⟨1, 0, 0, 0⟩)).i,
           ((Quaternion.hmul ⟨1, 0, 0, 0⟩ ⟨0, 1, 2, 3⟩).hmul (Quaternion.conj ⟨1, 0, 0, 0⟩)).j,
           ((Quaternion.hmul ⟨1, 0, 0, 0⟩ ⟨0, 1, 2, 3⟩).hmul (Quaternion.conj ⟨1, 0, 0, 0⟩)).k⟩ ∧
    PyVal.asPoint (.pyStr "np") = none ∧
    Rotation.rotate ⟨⟨0, 0, 1⟩, 0, ⟨1, 0, 0, 0⟩⟩ (.pyStr "np") = .error .invalidArgument :=
  ⟨(rotate_spec ⟨⟨0, 0, 1⟩, 0, ⟨1, 0, 0, 0⟩⟩ ⟨1, 2, 3⟩ (.pyStr "np")).1, rfl,
   (rotate_spec ⟨⟨0, 0, 1⟩, 0, ⟨1, 0, 0, 0⟩⟩ ⟨1, 2, 3⟩ (.pyStr "np")).2 rfl⟩

/-- C3: after a successful construction, `setAxis` or `setAngle`, the
stored rotation quaternion has norm 1, the stored axis (as returned by
`getAxis` with factor 1) is a unit vector, and the quaternion is exactly
`cos(θ/2) + sin(θ/2)·axis` for the currently stored axis and angle. -/
theorem state_invariant (a b c d v : PyVal) (rot0 rot : Rotation) :
    (Rotation.make a b c d = .ok rot →
      rot.q.norm = 1 ∧ (rot.getAxis 1).sqSum = 1 ∧
      rot.q = ⟨Real.cos (rot.theta / 2), Real.sin (rot.theta / 2) * rot.r.x,
               Real.sin (rot.theta / 2) * rot.r.y,
               Real.sin (rot.theta / 2) * rot.r.z⟩) ∧
    (rot0.setAxis a b c = .ok rot →
      rot.q.norm = 1 ∧ (rot.getAxis 1).sqSum = 1 ∧
      rot.q = ⟨Real.cos (rot.theta / 2), Real.sin (rot.theta / 2) * rot.r.x,
               Real.sin (rot.theta / 2) * rot.r.y,
               Real.sin (rot.theta / 2) * rot.r.z⟩) ∧
    (rot0.setAngle v = .ok rot →
      rot.q.norm = 1 ∧ (rot.getAxis 1).sqSum = 1 ∧
      rot.q = ⟨Real.cos (rot.theta / 2), Real.sin (rot.theta / 2) * rot.r.x,
               Real.sin (rot.theta / 2) * rot.r.y,
               Real.sin (rot.theta / 2) * rot.r.z⟩) := by
  refine ⟨fun h => ?_, fun h => ?_, fun h => ?_⟩
  · obtain ⟨-, p, -, hu, ht⟩ := make_ok_inv a b c d rot h
    obtain ⟨h1, h2, h3⟩ := update_invariant _ _ _ _ hu
    rw [getAxis_one_sqSum]
    rw [ht]
    exact ⟨h1, h2, h3⟩
  · obtain ⟨p, -, hu, ht⟩ := setAxis_ok_inv rot0 rot a b c h
    obtain ⟨h1, h2, h3⟩ := update_invariant _ _ _ _ hu
    rw [getAxis_one_sqSum]
    rw [ht]
    exact ⟨h1, h2, h3⟩
  · obtain ⟨-, hu, ht⟩ := setAngle_ok_inv rot0 rot v h
    obtain ⟨h1, h2, h3⟩ := update_invariant _ _ _ _ hu
    rw [getAxis_one_sqSum]
    rw [ht]
    exact ⟨h1, h2, h3⟩

/-- C3 witness: the concrete construction with axis `(1,0,0)` and angle
`0` succeeds, and its state satisfies the invariant. -/
theorem state_invariant_witness :
    Rotation.make (.pyFloat 1) (.pyFloat 0) (.pyFloat 0) (.pyFloat 0) =
      .ok ⟨⟨1, 0, 0⟩, 0, ⟨1, 0, 0, 0⟩⟩ ∧
    (Quaternion.norm ⟨1, 0, 0, 0⟩ = 1 ∧
     (Rotation.getAxis ⟨⟨1, 0, 0⟩, 0, ⟨1, 0, 0, 0⟩⟩ 1).sqSum = 1 ∧
     (⟨1, 0, 0, 0⟩ : Quaternion) =
       ⟨Real.cos (0 / 2), Real.sin (0 / 2) * 1, Real.sin (0 / 2) * 0,
        Real.sin (0 / 2) * 0⟩) := by
  have h : Rotation.make (.pyFloat 1) (.pyFloat 0) (.pyFloat 0) (.pyFloat 0) =
      .ok ⟨⟨1, 0, 0⟩, 0, ⟨1, 0, 0, 0⟩⟩ := by
    norm_num [Rotation.make, Rotation.setAxis, Point3D.make, Rotation.update,
      Quaternion.unit, Quaternion.norm, Quaternion.sqsum, Quaternion.smul,
      Quaternion.addScalar, InstanceCheck.isFloat, PyVal.toReal, Quaternion.eps,
      Real.sqrt_one, Real.sin_zero, Real.cos_zero]
  exact ⟨h,
    (state_invariant (.pyFloat 1) (.pyFloat 0) (.pyFloat 0) (.pyFloat 0)
      (.pyFloat 0) ⟨⟨1, 0, 0⟩, 0, ⟨1, 0, 0, 0⟩⟩ ⟨⟨1, 0, 0⟩, 0, ⟨1, 0, 0, 0⟩⟩).1 h⟩

/-- C4 counterexample: the axis `(1e-13, 0, 0)` is not the zero vector,
yet the re-derivation raises the degenerate-rotation error, because the
code's test is `norm < eps`, not `axis = 0`. -/
theorem update_nonzero_axis_counterexample :
    Rotation.update ⟨1e-13, 0, 0⟩ 0 = .error .degenerateRotation ∧
    (⟨1e-13, 0, 0⟩ : Point3D) ≠ ⟨0, 0, 0⟩ := by
  constructor
  · apply update_err
    rw [show (Point3D.sqSum ⟨1e-13, 0, 0⟩) = ((1e-13 : ℝ)) ^ 2 by
          norm_num [Point3D.sqSum]]
    rw [Real.sqrt_sq (by norm_num : (0 : ℝ) ≤ 1e-13)]
    norm_num [Quaternion.eps]
  · intro h
    have hx := congrArg Point3D.x h
    norm_num at hx

/-- C4 amended: the re-derivation raises the degenerate-rotation error
exactly when the axis norm is below `eps` (the code treats such an axis
as zero); otherwise it overwrites the axis with the unit axis and
produces `q = cos(θ/2) + sin(θ/2)·axis_unit`. -/
theorem update_spec (r : Point3D) (θ : ℝ) :
    (Rotation.update r θ = .error .degenerateRotation ↔
      Real.sqrt r.sqSum < Quaternion.eps) ∧
    (Quaternion.eps ≤ Real.sqrt r.sqSum →
      Rotation.update r θ =
        .ok (⟨r.x / Real.sqrt r.sqSum, r.y / Real.sqrt r.sqSum,
              r.z / Real.sqrt r.sqSum⟩,
             ⟨Real.cos (θ / 2),
              Real.sin (θ / 2) * (r.x / Real.sqrt r.sqSum),
              Real.sin (θ / 2) * (r.y / Real.sqrt r.sqSum),
              Real.sin (θ / 2) * (r.z / Real.sqrt r.sqSum)⟩)) := by
  constructor
  · constructor
    · intro h
      by_contra hn
      rw [update_ok r θ (not_lt.1 hn)] at h
      exact absurd h (by simp)
    · exact update_err r θ
  · exact update_ok r θ

/-- C4 amended claim, witness at the concrete axis `(0,0,1)`, angle 0. -/
theorem update_spec_witness :
    Quaternion.eps ≤ Real.sqrt (Point3D.sqSum ⟨0, 0, 1⟩) ∧
    Rotation.update ⟨0, 0, 1⟩ 0 =
      .ok (⟨0 / Real.sqrt (Point3D.sqSum ⟨0, 0, 1⟩),
            0 / Real.sqrt (Point3D.sqSum ⟨0, 0, 1⟩),
            1 / Real.sqrt (Point3D.sqSum ⟨0, 0, 1⟩)⟩,
           ⟨Real.cos (0 / 2),
            Real.sin (0 / 2) * (0 / Real.sqrt (Point3D.sqSum ⟨0, 0, 1⟩)),
            Real.sin (0 / 2) * (0 / Real.sqrt (Point3D.sqSum ⟨0, 0, 1⟩)),
            Real.sin (0 / 2) * (1 / Real.sqrt (Point3D.sqSum ⟨0, 0, 1⟩))⟩) := by
  have h : Quaternion.eps ≤ Real.sqrt (Point3D.sqSum ⟨0, 0, 1⟩) := by
    rw [show (Point3D.sqSum ⟨0, 0, 1⟩) = 1 by norm_num [Point3D.sqSum],
      Real.sqrt_one]
    norm_num [Quaternion.eps]
  exact ⟨h, (update_spec ⟨0, 0, 1⟩ 0).2 h⟩

lemma conj_conj (q : Quaternion) : q.conj.conj = q := by
  ext <;> simp [Quaternion.conj]

lemma sqsum_one_of_norm_one (q : Quaternion) (h : q.norm = 1) : q.sqsum = 1 := by
  unfold Quaternion.norm at h
  exact (Real.sqrt_eq_one.1 h)

/-- Conjugating the vector part of the sandwich `q·v·conj q` by `conj q`
on the left and `q` on the right recovers a pure `v` when `q` is a unit
quaternion: the re-derived quaternion after `setAngle(-θ)` is `conj q`,
so this is the algebraic heart of the round-trip property. -/
lemma sandwich_inv (q : Quaternion) (x y z : ℝ) (h : q.sqsum = 1) :
    (q.conj.hmul ⟨0, ((q.hmul ⟨0, x, y, z⟩).hmul q.conj).i,
                     ((q.hmul ⟨0, x, y, z⟩).hmul q.conj).j,
                     ((q.hmul ⟨0, x, y, z⟩).hmul q.conj).k⟩).hmul q =
      (⟨0, x, y, z⟩ : Quaternion) := by
  have h' : q.o * q.o + q.i * q.i + q.j * q.j + q.k * q.k = 1 := h
  apply Quaternion.ext
  · simp only [Quaternion.hmul, Quaternion.conj]
    ring
  · simp only [Quaternion.hmul, Quaternion.conj]
    linear_combination x * (q.o * q.o + q.i * q.i + q.j * q.j + q.k * q.k + 1) * h'
  · simp only [Quaternion.hmul, Quaternion.conj]
    linear_combination y * (q.o * q.o + q.i * q.i + q.j * q.j + q.k * q.k + 1) * h'
  · simp only [Quaternion.hmul, Quaternion.conj]
    linear_combination z * (q.o * q.o + q.i * q.i + q.j * q.j + q.k * q.k + 1) * h'

/-- C8: if a rotation is built from any axis and angle θ, a point is
rotated by it, the angle is then set to −θ, and the intermediate point
is rotated again, the original point comes back (exactly, in the
real-number model). -/
theorem rotate_roundtrip (rx ry rz θ px py pz : ℝ) (rot rot2 : Rotation)
    (p1 : Point3D)
    (h1 : Rotation.make (.pyFloat rx) (.pyFloat ry) (.pyFloat rz) (.pyFloat θ) =
      .ok rot)
    (h2 : rot.setAngle (.pyFloat (-θ)) = .ok rot2)
    (h3 : rot.rotate (.pyPoint ⟨px, py, pz⟩) = .ok p1) :
    rot2.rotate (.pyPoint p1) = .ok (⟨px, py, pz⟩ : Point3D) := by
  obtain ⟨-, p, -, hu, ht⟩ := make_ok_inv _ _ _ _ rot h1
  simp only [PyVal.toReal] at hu ht
  obtain ⟨hq1, hr1, -⟩ := update_invariant _ _ _ _ hu
  obtain ⟨-, hu2, ht2⟩ := setAngle_ok_inv rot rot2 _ h2
  simp only [PyVal.toReal] at hu2 ht2
  have hs : Real.sqrt rot.r.sqSum = 1 := by rw [hr1, Real.sqrt_one]
  obtain ⟨-, hr2, hq2⟩ := update_ok_inv rot.r (-θ) rot2.r rot2.q hu2
  rw [hs] at hr2 hq2
  simp only [div_one] at hr2 hq2
  have hqf : rot.q = ⟨Real.cos (θ / 2), Real.sin (θ / 2) * rot.r.x,
      Real.sin (θ / 2) * rot.r.y, Real.sin (θ / 2) * rot.r.z⟩ := by
    obtain ⟨-, -, h3'⟩ := update_invariant _ _ _ _ hu
    exact h3'
  have hconj : rot2.q = rot.q.conj := by
    rw [hq2, hqf]
    unfold Quaternion.conj
    apply Quaternion.ext <;>
      simp [neg_div, Real.cos_neg, Real.sin_neg]
  have hsq : rot.q.sqsum = 1 := sqsum_one_of_norm_one rot.q hq1
  have hsand := sandwich_inv rot.q px py pz hsq
  simp only [Rotation.rotate, PyVal.asPoint] at h3 ⊢
  simp only [Except.ok.injEq] at h3
  subst h3
  rw [hconj, conj_conj, hsand]

/-- C8 witness: rotation by Real.pi about the z axis sends `(2,3,5)` to
`(-2,-3,5)`; after `setAngle(-Real.pi)` the second rotation brings it back. -/
theorem rotate_roundtrip_witness :
    Rotation.make (.pyFloat 0) (.pyFloat 0) (.pyFloat 1) (.pyFloat Real.pi) =
      .ok ⟨⟨0, 0, 1⟩, Real.pi, ⟨0, 0, 0, 1⟩⟩ ∧
    Rotation.setAngle ⟨⟨0, 0, 1⟩, Real.pi, ⟨0, 0, 0, 1⟩⟩ (.pyFloat (-Real.pi)) =
      .ok ⟨⟨0, 0, 1⟩, -Real.pi, ⟨0, 0, 0, -1⟩⟩ ∧
    Rotation.rotate ⟨⟨0, 0, 1⟩, Real.pi, ⟨0, 0, 0, 1⟩⟩ (.pyPoint ⟨2, 3, 5⟩) =
      .ok ⟨-2, -3, 5⟩ ∧
    Rotation.rotate ⟨⟨0, 0, 1⟩, -Real.pi, ⟨0, 0, 0, -1⟩⟩ (.pyPoint ⟨-2, -3, 5⟩) =
      .ok ⟨2, 3, 5⟩ := by
  have hs : Real.sqrt (Point3D.sqSum ⟨0, 0, 1⟩) = 1 := by
    rw [show (Point3D.sqSum ⟨0, 0, 1⟩) = 1 by norm_num [Point3D.sqSum],
      Real.sqrt_one]
  have heps : Quaternion.eps ≤ Real.sqrt (Point3D.sqSum ⟨0, 0, 1⟩) := by
    rw [hs]; norm_num [Quaternion.eps]
  have hu1 := update_ok ⟨0, 0, 1⟩ Real.pi heps
  rw [hs] at hu1
  norm_num [Real.sin_pi_div_two, Real.cos_pi_div_two] at hu1
  have hu2 := update_ok ⟨0, 0, 1⟩ (-Real.pi) heps
  rw [hs] at hu2
  norm_num [neg_div, Real.sin_neg, Real.cos_neg, Real.sin_pi_div_two,
    Real.cos_pi_div_two] at hu2
  have h1 : Rotation.make (.pyFloat 0) (.pyFloat 0) (.pyFloat 1) (.pyFloat Real.pi) =
      .ok ⟨⟨0, 0, 1⟩, Real.pi, ⟨0, 0, 0, 1⟩⟩ := by
    norm_num [Rotation.make, Rotation.setAxis, Point3D.make,
      InstanceCheck.isFloat, PyVal.toReal, hu1]
  have h2 : Rotation.setAngle ⟨⟨0, 0, 1⟩, Real.pi, ⟨0, 0, 0, 1⟩⟩ (.pyFloat (-Real.pi)) =
      .ok ⟨⟨0, 0, 1⟩, -Real.pi, ⟨0, 0, 0, -1⟩⟩ := by
    norm_num [Rotation.setAngle, InstanceCheck.isFloat, PyVal.toReal, hu2]
  have h3 : Rotation.rotate ⟨⟨0, 0, 1⟩, Real.pi, ⟨0, 0, 0, 1⟩⟩ (.pyPoint ⟨2, 3, 5⟩) =
      .ok ⟨-2, -3, 5⟩ := by
    norm_num [Rotation.rotate, PyVal.asPoint, Quaternion.hmul, Quaternion.conj]
  exact ⟨h1, h2, h3, rotate_roundtrip 0 0 1 Real.pi 2 3 5 _ _ _ h1 h2 h3⟩

/-- C10: constructing a `Rotation` with the default arguments (axis
`(0,0,0)`, angle `0`) raises the degenerate-rotation error: the zero
axis cannot be normalized. -/
theorem default_rotation_degenerate :
    Rotation.make (.pyFloat 0) (.pyFloat 0) (.pyFloat 0) (.pyFloat 0) =
      .error .degenerateRotation := by
  norm_num [Rotation.make, Rotation.setAxis, Point3D.make, Rotation.update,
    Quaternion.unit, Quaternion.norm, Quaternion.sqsum, InstanceCheck.isFloat,
    PyVal.toReal, Quaternion.eps, Point3D.sqSum, Real.sqrt_zero]


end PyQuat
